import Mathlib

/-!
Shallow embedding of the pgmpy XMLBIF codec (`pgmpy/readwrite/XMLBIF.py`):
the `XMLBIFReader` extraction functions and the `XMLBIFWriter` tree builder.

XML documents are modelled as element trees: a tag, an attribute list, an
optional text payload and a list of child elements, mirroring the
ElementTree surface the code uses (`find`, `findall`, `.text`).  Python
dicts are modelled as association lists with unique keys; dict
comprehensions are replayed by `dictOfList` (later bindings overwrite
earlier ones, keeping the first insertion position).  Fallible Python code
(`AttributeError` on a missing child, `KeyError`, `ValueError`, numpy
reshape failures) is modelled in `Except String`.
-/

inductive XElem : Type where
  | node : String → List (String × String) → Option String → List XElem → XElem

def XElem.tag : XElem → String
  | .node t _ _ _ => t

def XElem.attrs : XElem → List (String × String)
  | .node _ a _ _ => a

def XElem.text : XElem → Option String
  | .node _ _ x _ => x

def XElem.children : XElem → List XElem
  | .node _ _ _ c => c

/-- ElementTree `find`: the first direct child with the given tag, if any. -/
def XElem.find (e : XElem) (t : String) : Option XElem :=
  e.children.find? (fun c => c.tag == t)

/-- ElementTree `findall`: all direct children with the given tag, in
document order. -/
def XElem.findall (e : XElem) (t : String) : List XElem :=
  e.children.filter (fun c => c.tag == t)

/-- Python `str.split()` with no arguments: split on runs of whitespace,
discarding empty pieces.  `acc` holds the current token, reversed. -/
def pySplitAux : List Char → List Char → List String
  | [], acc => if acc.isEmpty then [] else [String.mk acc.reverse]
  | c :: cs, acc =>
    if c.isWhitespace then
      (if acc.isEmpty then [] else [String.mk acc.reverse]) ++ pySplitAux cs []
    else
      pySplitAux cs (c :: acc)

def pySplit (s : String) : List String :=
  pySplitAux s.data []

/-- Python `str.split(sep)` on characters, keeping empty pieces (used only
to dissect a numeric token at its `.` and `e` markers). -/
def splitChar (sep : Char) : List Char → List (List Char)
  | [] => [[]]
  | c :: cs =>
    if c == sep then [] :: splitChar sep cs
    else
      match splitChar sep cs with
      | [] => [[c]]
      | p :: ps => (c :: p) :: ps

def digitsVal (cs : List Char) : Nat :=
  cs.foldl (fun n c => n * 10 + (c.toNat - 48)) 0

def parseNatDigits (cs : List Char) : Option Nat :=
  if cs.isEmpty then none
  else if cs.all Char.isDigit then some (digitsVal cs) else none

/-- Unsigned decimal mantissa: accepts `"12"`, `"12.5"`, `"12."`, `".5"`. -/
def parseMantissa (cs : List Char) : Option Rat :=
  match splitChar '.' cs with
  | [intPart] => (parseNatDigits intPart).map (fun n => (n : Rat))
  | [intPart, fracPart] =>
    if intPart.isEmpty && fracPart.isEmpty then none
    else if intPart.all Char.isDigit && fracPart.all Char.isDigit then
      some ((digitsVal intPart : Rat) + (digitsVal fracPart : Rat) / (10 : Rat) ^ fracPart.length)
    else none
  | _ => none

def parseExpPart (cs : List Char) : Option Int :=
  match cs with
  | '-' :: rest => (parseNatDigits rest).map (fun n => -(n : Int))
  | '+' :: rest => (parseNatDigits rest).map (fun n => (n : Int))
  | _ => (parseNatDigits cs).map (fun n => (n : Int))

def ratPow10 : Int → Rat
  | .ofNat n => (10 : Rat) ^ n
  | .negSucc n => 1 / (10 : Rat) ^ (n + 1)

def pyFloatCore (cs : List Char) : Option Rat :=
  let eparts :=
    match splitChar 'e' cs with
    | [_] => splitChar 'E' cs
    | parts => parts
  match eparts with
  | [mant] => parseMantissa mant
  | [mant, ex] =>
    match parseMantissa mant, parseExpPart ex with
    | some m, some e => some (m * ratPow10 e)
    | _, _ => none
  | _ => none

/-- Python `float(token)`, modelled on finite decimal literals with
optional sign, fraction and exponent (which covers every numeral that can
appear in an XMLBIF TABLE); tokens outside this grammar are rejected just
as `float` raises `ValueError` on non-numeric text. -/
def pyFloat (s : String) : Option Rat :=
  match s.data with
  | '-' :: rest => (pyFloatCore rest).map (fun r => -r)
  | '+' :: rest => pyFloatCore rest
  | cs => pyFloatCore cs

/-- `list(map(f, xs))` where every application must succeed. -/
def optMapM (f : α → Option β) : List α → Option (List β)
  | [] => some []
  | x :: xs =>
    match f x with
    | none => none
    | some y =>
      match optMapM f xs with
      | none => none
      | some ys => some (y :: ys)

/-- A Python comprehension: elements produced left to right, the first
raised exception aborting the whole construction. -/
def exMapM (f : α → Except String β) : List α → Except String (List β)
  | [] => .ok []
  | x :: xs =>
    match f x with
    | .error e => .error e
    | .ok y =>
      match exMapM f xs with
      | .error e => .error e
      | .ok ys => .ok (y :: ys)

/-- A Python `for` loop threading mutable state, each step able to raise. -/
def exFoldl (f : σ → α → Except String σ) : σ → List α → Except String σ
  | s, [] => .ok s
  | s, x :: xs =>
    match f s x with
    | .error e => .error e
    | .ok s' => exFoldl f s' xs

/-- Python dict assignment on an association list with unique keys:
overwrite in place if the key exists, append otherwise. -/
def dictInsert [BEq K] (k : K) (v : V) : List (K × V) → List (K × V)
  | [] => [(k, v)]
  | p :: ps => if p.1 == k then (k, v) :: ps else p :: dictInsert k v ps

/-- Replay a key/value sequence into a dict (dict-comprehension semantics:
later bindings overwrite earlier ones). -/
def dictOfList [BEq K] (l : List (K × V)) : List (K × V) :=
  l.foldl (fun d p => dictInsert p.1 p.2 d) []

/-- numpy row-major reshape of a flat list into `r` rows of `c` entries
each (callers check that `r * c` matches the length). -/
def takeChunks (r c : Nat) (xs : List α) : List (List α) :=
  match r with
  | 0 => []
  | r' + 1 => xs.take c :: takeChunks r' c (xs.drop c)

namespace XMLBIFReader

/-- Python truthiness for the reader's optional inputs: `None` and the
empty string are falsy. -/
def pyTruthy : Option String → Bool
  | none => false
  | some s => !s.isEmpty

/-- `XMLBIFReader.__init__` input selection: a truthy `path` wins, else a
truthy `string`, else `ValueError("Must specify either path or string")`.
The chosen source is reported on the left (file) or right (text). -/
def reader_source (path sdata : Option String) : Except String (String ⊕ String) :=
  if pyTruthy path then .ok (.inl (path.getD ""))
  else if pyTruthy sdata then .ok (.inr (sdata.getD ""))
  else .error "ValueError: Must specify either path or string"

/-- `get_variables`: the NAME text of each VARIABLE element, in document
order; `variable.find('NAME')` returning `None` makes `.text` raise. -/
def get_variables (network : XElem) : Except String (List (Option String)) :=
  exMapM (fun v =>
      match v.find "NAME" with
      | some nm => .ok nm.text
      | none => .error "AttributeError: find NAME returned None")
    (network.findall "VARIABLE")

/-- One entry of the `get_parents` dict comprehension: the FOR text paired
with the GIVEN texts in reversed document order (the `[::-1]` slice). -/
def defEntry (d : XElem) : Except String (Option String × List (Option String)) :=
  match d.find "FOR" with
  | some f => .ok (f.text, ((d.findall "GIVEN").map XElem.text).reverse)
  | none => .error "AttributeError: find FOR returned None"

/-- `get_parents`: a dict keyed by FOR text over all DEFINITION elements. -/
def get_parents (network : XElem) :
    Except String (List (Option String × List (Option String))) :=
  (exMapM defEntry (network.findall "DEFINITION")).map dictOfList

/-- `get_edges`: `[[value, key] for key in parents for value in parents[key]]`. -/
def get_edges (ps : List (Option String × List (Option String))) :
    List (Option String × Option String) :=
  ps.flatMap (fun p => p.2.map (fun v => (v, p.1)))

/-- `get_states`: dict from each VARIABLE's NAME text to its OUTCOME texts. -/
def get_states (network : XElem) :
    Except String (List (Option String × List (Option String))) :=
  (exMapM (fun v =>
      match v.find "NAME" with
      | some nm => .ok ((nm.text, (v.findall "OUTCOME").map XElem.text) :
          Option String × List (Option String))
      | none => .error "AttributeError: find NAME returned None")
    (network.findall "VARIABLE")).map dictOfList

/-- `get_property`: dict from each VARIABLE's NAME text to its PROPERTY texts. -/
def get_property (network : XElem) :
    Except String (List (Option String × List (Option String))) :=
  (exMapM (fun v =>
      match v.find "NAME" with
      | some nm => .ok ((nm.text, (v.findall "PROPERTY").map XElem.text) :
          Option String × List (Option String))
      | none => .error "AttributeError: find NAME returned None")
    (network.findall "VARIABLE")).map dictOfList

/-- One entry of the `get_cpd` dict comprehension, for one TABLE child of
one DEFINITION: the FOR text, paired with
`list(map(float, table.text.split()))`. -/
def cpdEntry (d t : XElem) : Except String (Option String × List Rat) :=
  match d.find "FOR" with
  | none => .error "AttributeError: find FOR returned None"
  | some f =>
    match t.text with
    | none => .error "AttributeError: split on None"
    | some s =>
      match optMapM pyFloat (pySplit s) with
      | some fs => .ok (f.text, fs)
      | none => .error "ValueError: could not convert string to float"

/-- The raw key/value sequence of the `get_cpd` comprehension: one entry
per (DEFINITION, TABLE) pair, flattened in document order. -/
def cpdRaw (network : XElem) : Except String (List (Option String × List Rat)) :=
  (exMapM (fun d => exMapM (cpdEntry d) (d.findall "TABLE"))
    (network.findall "DEFINITION")).map List.flatten

/-- The body of `get_cpd`'s reshape loop: `arr.reshape((k, arr.size // k))`
with `k = len(self.variable_states[variable])`.  A FOR name with no states
entry raises `KeyError`; `k = 0` raises `ZeroDivisionError` from the
Python `//`; numpy raises `ValueError` when `k * (size // k) ≠ size`. -/
def reshapeEntry (states : List (Option String × List (Option String)))
    (p : Option String × List Rat) : Except String (Option String × List (List Rat)) :=
  match states.lookup p.1 with
  | none => .error "KeyError: variable has no states entry"
  | some sts =>
    if sts.length = 0 then .error "ZeroDivisionError: integer division or modulo by zero"
    else if p.2.length = sts.length * (p.2.length / sts.length) then
      .ok (p.1, takeChunks sts.length (p.2.length / sts.length) p.2)
    else .error "ValueError: cannot reshape array"

/-- `get_cpd`: build the dict of flat float lists, then reshape each value
in place against the states dict. -/
def get_cpd (network : XElem) (states : List (Option String × List (Option String))) :
    Except String (List (Option String × List (List Rat))) := do
  let raw ← cpdRaw network
  exMapM (reshapeEntry states) (dictOfList raw)

/-- The eagerly extracted reader state, one field per `self.*` assignment
in `XMLBIFReader.__init__`. -/
structure ReaderData where
  network_name : Option String
  vars : List (Option String)
  variable_parents : List (Option String × List (Option String))
  edge_list : List (Option String × Option String)
  variable_states : List (Option String × List (Option String))
  variable_CPD : List (Option String × List (List Rat))
  variable_property : List (Option String × List (Option String))

/-- `XMLBIFReader.__init__` once the NETWORK element is in hand: eager
extraction of the derived maps, in source order; the network name comes
from `self.network.find('NAME').text`, which raises when NAME is absent. -/
def reader_of_network (network : XElem) : Except String ReaderData := do
  let nm ←
    match network.find "NAME" with
    | some e => Except.ok e.text
    | none => Except.error "AttributeError: find NAME returned None"
  let vars ← get_variables network
  let ps ← get_parents network
  let es := get_edges ps
  let sts ← get_states network
  let cpd ← get_cpd network sts
  let props ← get_property network
  Except.ok ⟨nm, vars, ps, es, sts, cpd, props⟩

/-- The document phase of `__init__`: `.find('NETWORK')` on the parsed
root, then eager extraction (a root with no NETWORK child yields `None`,
on which the first attribute access raises). -/
def reader_of_root (root : XElem) : Except String ReaderData :=
  match root.find "NETWORK" with
  | some network => reader_of_network network
  | none => .error "AttributeError: find NAME returned None"

end XMLBIFReader

namespace XMLBIFWriter

/-- The `model_data` record handed to `XMLBIFWriter`: a Python dict whose
`network_name` and `property` keys may be absent (`Option`); the mapping
fields are themselves dicts, modelled as association lists whose keys are
unique. -/
structure ModelData where
  network_name : Option String
  vars : List String
  states : List (String × List String)
  parents : List (String × List String)
  property : Option (List (String × List String))

def mkOutcome (s : String) : XElem := XElem.node "OUTCOME" [] (some s) []

def mkProperty (s : String) : XElem := XElem.node "PROPERTY" [] (some s) []

def mkGiven (s : String) : XElem := XElem.node "GIVEN" [] (some s) []

/-- Python string `<`: lexicographic comparison by code point, decided on
the underlying character lists (this is exactly `String`'s order). -/
def strLtb (a b : String) : Bool :=
  decide (a.data < b.data)

def strLeb (a b : String) : Bool :=
  !strLtb b a

/-- One step of insertion sort with the Python string order. -/
def insertStr (x : String) : List String → List String
  | [] => [x]
  | y :: ys => if strLeb x y then x :: y :: ys else y :: insertStr x ys

/-- Python `sorted` on strings.  Strings are totally ordered (by code
point, as in CPython), so every sorting algorithm produces the same list;
insertion sort is used as the executable representative. -/
def pySorted (l : List String) : List String :=
  l.foldr insertStr []

/-- Append children to the element registered for `v` in `variable_tag`.
The dict entry for `v` is the element created at the last occurrence of
`v` in the (sorted) creation sequence; `none` models the `KeyError`
raised when no element was created for `v`. -/
def updateLast (v : String) (new : List XElem) :
    List (String × List XElem) → Option (List (String × List XElem))
  | [] => none
  | (w, cs) :: rest =>
    match updateLast v new rest with
    | some rest' => some ((w, cs) :: rest')
    | none => if w == v then some ((w, cs ++ new) :: rest) else none

/-- One of the `add_variables` child-attaching loops: for each dict entry
`(v, items)`, append one `g`-built child per item to the element
registered for `v`, raising `KeyError` (message `E`) when `v` has no
registered element. -/
def applyEntries (g : String → XElem) (E : String)
    (tags : List (String × List XElem)) (entries : List (String × List String)) :
    Except String (List (String × List XElem)) :=
  exFoldl (fun acc p =>
    match updateLast p.1 (p.2.map g) acc with
    | some acc' => Except.ok acc'
    | none => Except.error E) tags entries

/-- `add_variables`: create one VARIABLE element (TYPE="nature", no NAME
child) per variable in sorted order; then append one OUTCOME per state to
the element registered for each states-dict key; then fetch
`model['property']` (bare subscript: `KeyError` when absent) and append
one PROPERTY per string likewise. -/
def add_variables (vars : List String) (states : List (String × List String))
    (propDict : Option (List (String × List String))) : Except String (List XElem) := do
  let tags : List (String × List XElem) := (pySorted vars).map (fun v => (v, []))
  let tags ← applyEntries mkOutcome "KeyError: states entry for unknown variable" tags states
  let props ←
    match propDict with
    | some p => Except.ok p
    | none => Except.error "KeyError: property"
  let tags ← applyEntries mkProperty "KeyError: property entry for unknown variable" tags props
  Except.ok (tags.map (fun p => XElem.node "VARIABLE" [("TYPE", "nature")] none p.2))

def mkDefinition (v : String) (givens : List String) : XElem :=
  XElem.node "DEFINITION" [] none
    (XElem.node "FOR" [] (some v) [] :: givens.map mkGiven)

/-- The VARIABLE element `add_variables` ends up building for `v` on a
well-formed record: its OUTCOME children then its PROPERTY children. -/
def varNode (states propDict : List (String × List String)) (v : String) : XElem :=
  XElem.node "VARIABLE" [("TYPE", "nature")] none
    ((((states.lookup v).getD []).map mkOutcome)
      ++ (((propDict.lookup v).getD []).map mkProperty))

/-- `add_definition`: one DEFINITION element per parents-dict key in
sorted order, holding a FOR child and one GIVEN child per parent name in
sorted order. -/
def add_definition (parents : List (String × List String)) : List XElem :=
  (pySorted (parents.map Prod.fst)).map (fun v =>
    mkDefinition v (pySorted ((parents.lookup v).getD [])))

/-- `XMLBIFWriter.__init__`, producing the NETWORK element: an optional
NAME child (the `KeyError` on a missing `network_name` key is swallowed by
the `try`/`except`), then the VARIABLE elements, then the DEFINITION
elements, in the order the children are attached. -/
def nameElems : Option String → List XElem
  | some n => [XElem.node "NAME" [] (some n) []]
  | none => []

def writer_network (m : ModelData) : Except String XElem :=
  (add_variables m.vars m.states m.property).map (fun varElems =>
    XElem.node "NETWORK" [] none
      (nameElems m.network_name ++ varElems ++ add_definition m.parents))

/-- `XMLBIFWriter.__init__` in full: the BIF root wrapping the NETWORK. -/
def writer_init (m : ModelData) : Except String XElem :=
  (writer_network m).map (fun net => XElem.node "BIF" [("version", "0.3")] none [net])

end XMLBIFWriter


/-! ### Concrete fixtures used by the claim instances -/

section Fixtures

open XMLBIFReader XMLBIFWriter

/-- A well-formed one-variable model record (round-trip input). -/
def roundtripModel : ModelData :=
  { network_name := some "net", vars := ["a"], states := [("a", ["yes", "no"])],
    parents := [("a", [])], property := some [("a", [])] }

/-- A well-formed one-variable model record (schema-conformance input). -/
def schemaModel : ModelData :=
  { network_name := some "net", vars := ["a"], states := [("a", ["yes", "no"])],
    parents := [("a", [])], property := some [("a", [])] }

/-- The FOR child used by `parentsDefn`. -/
def parentsFor : XElem := XElem.node "FOR" [] (some "c") []

/-- DEFINITION with FOR c and GIVEN p1, GIVEN p2 in document order. -/
def parentsDefn : XElem :=
  XElem.node "DEFINITION" [] none
    [parentsFor,
     XElem.node "GIVEN" [] (some "p1") [],
     XElem.node "GIVEN" [] (some "p2") []]

/-- NETWORK with one DEFINITION: FOR c, GIVEN p1, GIVEN p2 (document order). -/
def parentsNet : XElem :=
  XElem.node "NETWORK" [] none [parentsDefn]

def cpdFor : XElem := XElem.node "FOR" [] (some "v") []

def cpdTable : XElem := XElem.node "TABLE" [] (some "0.25 0.75 0.5 0.5") []

def cpdDefn : XElem := XElem.node "DEFINITION" [] none [cpdFor, cpdTable]

/-- NETWORK with a two-state variable and a four-entry TABLE. -/
def cpdNet : XElem :=
  XElem.node "NETWORK" [] none
    [XElem.node "VARIABLE" [("TYPE", "nature")] none
      [XElem.node "NAME" [] (some "v") [],
       XElem.node "OUTCOME" [] (some "t") [],
       XElem.node "OUTCOME" [] (some "f") []],
     cpdDefn]

def cpdNetStates : List (Option String × List (Option String)) :=
  [(some "v", [some "t", some "f"])]

def cpdNetFloats : List Rat :=
  (optMapM pyFloat (pySplit "0.25 0.75 0.5 0.5")).getD []

def cpdBadFor : XElem := XElem.node "FOR" [] (some "w") []

def cpdBadTable : XElem := XElem.node "TABLE" [] (some "0.25 0.75 0.5 0.5 0.1") []

def cpdBadDefn : XElem := XElem.node "DEFINITION" [] none [cpdBadFor, cpdBadTable]

/-- NETWORK whose TABLE holds five floats for a two-state variable. -/
def cpdBadNet : XElem :=
  XElem.node "NETWORK" [] none [cpdBadDefn]

def cpdBadNetStates : List (Option String × List (Option String)) :=
  [(some "w", [some "t", some "f"])]

def cpdBadNetFloats : List Rat :=
  (optMapM pyFloat (pySplit "0.25 0.75 0.5 0.5 0.1")).getD []

def noDefDefn : XElem :=
  XElem.node "DEFINITION" [] none
    [XElem.node "FOR" [] (some "b") [],
     XElem.node "GIVEN" [] (some "a") []]

/-- NETWORK with VARIABLE a present but no DEFINITION mentioning a. -/
def noDefNet : XElem :=
  XElem.node "NETWORK" [] none
    [XElem.node "NAME" [] (some "n") [],
     XElem.node "VARIABLE" [] none
      [XElem.node "NAME" [] (some "a") [],
       XElem.node "OUTCOME" [] (some "t") []],
     XElem.node "VARIABLE" [] none
      [XElem.node "NAME" [] (some "b") [],
       XElem.node "OUTCOME" [] (some "t") []],
     noDefDefn]

/-- Model record with unsorted variable and parent lists. -/
def orderModel : ModelData :=
  { network_name := none, vars := ["b", "a", "c"],
    states := [("b", ["t", "f"]), ("a", ["x"]), ("c", ["y"])],
    parents := [("b", ["c", "a"]), ("a", []), ("c", ["b"])],
    property := some [("a", ["pos = (1, 2)"])] }

/-- Parsed BIF root whose NETWORK element has no NAME child. -/
def nonameRoot : XElem :=
  XElem.node "BIF" [("version", "0.3")] none
    [XElem.node "NETWORK" [] none
      [XElem.node "VARIABLE" [] none
        [XElem.node "NAME" [] (some "a") [],
         XElem.node "OUTCOME" [] (some "t") []]]]

/-- Well-formed model record without a network_name key. -/
def nonameModel : ModelData :=
  { network_name := none, vars := ["a"], states := [("a", ["yes", "no"])],
    parents := [("a", [])], property := some [("a", [])] }

/-- NETWORK element with no NAME child, handed to the reader. -/
def nonameNet : XElem :=
  XElem.node "NETWORK" [] none
    [XElem.node "VARIABLE" [] none
      [XElem.node "NAME" [] (some "a") []]]

/-- Model record whose dict has no property key. -/
def noPropModel : ModelData :=
  { network_name := some "net", vars := ["a"], states := [("a", ["yes", "no"])],
    parents := [("a", [])], property := none }

end Fixtures

/-! ### Properties of the string order and of `pySorted` -/

namespace XMLBIFWriter

theorem strLeb_iff (a b : String) : strLeb a b = true ↔ a ≤ b := by
  simp only [strLeb, strLtb, Bool.not_eq_true', decide_eq_false_iff_not]
  exact (not_congr String.lt_iff_toList_lt).symm

theorem insertStr_eq_orderedInsert (x : String) :
    ∀ l, insertStr x l = List.orderedInsert (· ≤ ·) x l
  | [] => rfl
  | y :: ys => by
    by_cases h : x ≤ y
    · rw [insertStr, if_pos ((strLeb_iff x y).mpr h), List.orderedInsert, if_pos h]
    · rw [insertStr, if_neg (fun hb => h ((strLeb_iff x y).mp hb)), List.orderedInsert,
        if_neg h, insertStr_eq_orderedInsert x ys]

theorem pySorted_eq_insertionSort :
    ∀ l, pySorted l = List.insertionSort (· ≤ ·) l
  | [] => rfl
  | x :: l => by
    rw [List.insertionSort, ← pySorted_eq_insertionSort l, ← insertStr_eq_orderedInsert]
    rfl

theorem pySorted_sorted (l : List String) : List.Sorted (· ≤ ·) (pySorted l) := by
  rw [pySorted_eq_insertionSort]
  exact List.sorted_insertionSort _ l

theorem pySorted_perm (l : List String) : List.Perm (pySorted l) l := by
  rw [pySorted_eq_insertionSort]
  exact List.perm_insertionSort _ l

theorem pySorted_nodup {l : List String} (h : l.Nodup) : (pySorted l).Nodup :=
  ((pySorted_perm l).nodup_iff).mpr h

theorem mem_pySorted {l : List String} {x : String} : x ∈ pySorted l ↔ x ∈ l :=
  (pySorted_perm l).mem_iff

end XMLBIFWriter

/-! ### Association-list dict lemmas -/

section DictLemmas

variable {K V : Type} [BEq K] [LawfulBEq K]

theorem lookup_dictInsert_self (k : K) (v : V) :
    ∀ d, (dictInsert k v d).lookup k = some v
  | [] => by simp [dictInsert, List.lookup]
  | p :: ps => by
    by_cases h : p.1 == k
    · rw [dictInsert, if_pos h]
      simp [List.lookup]
    · rw [dictInsert, if_neg h, List.lookup]
      have hkp : (k == p.1) = false := by
        apply beq_eq_false_iff_ne.mpr
        intro hk
        exact h (by simp [hk])
      rw [hkp]
      exact lookup_dictInsert_self k v ps

theorem lookup_dictInsert_ne {k k' : K} (v : V) (hne : (k' == k) = false) :
    ∀ d, (dictInsert k v d).lookup k' = d.lookup k'
  | [] => by simp [dictInsert, List.lookup, hne]
  | p :: ps => by
    by_cases h : p.1 == k
    · have hp : p.1 = k := eq_of_beq h
      rw [dictInsert, if_pos h, List.lookup, List.lookup, hne, hp, hne]
    · rw [dictInsert, if_neg h, List.lookup, List.lookup]
      cases hkp : k' == p.1 with
      | true => rfl
      | false => exact lookup_dictInsert_ne v hne ps

omit [LawfulBEq K] in
theorem mem_dictInsert {q : K × V} {k : K} {v : V} :
    ∀ {d}, q ∈ dictInsert k v d → q = (k, v) ∨ q ∈ d
  | [], h => by simpa [dictInsert] using h
  | p :: ps, h => by
    by_cases hp : p.1 == k
    · rw [dictInsert, if_pos hp] at h
      rcases List.mem_cons.mp h with h | h
      · exact Or.inl h
      · exact Or.inr (List.mem_cons_of_mem _ h)
    · rw [dictInsert, if_neg hp] at h
      rcases List.mem_cons.mp h with h | h
      · exact Or.inr (h ▸ List.mem_cons_self _ _)
      · rcases mem_dictInsert h with h | h
        · exact Or.inl h
        · exact Or.inr (List.mem_cons_of_mem _ h)

/-- Entries whose key never occurs in the replayed tail keep their lookup. -/
theorem lookup_foldl_dictInsert_ne {k : K} :
    ∀ (l : List (K × V)) (d : List (K × V)), (∀ p ∈ l, (k == p.1) = false) →
      (l.foldl (fun d p => dictInsert p.1 p.2 d) d).lookup k = d.lookup k
  | [], d, _ => rfl
  | p :: ps, d, h => by
    rw [List.foldl_cons,
      lookup_foldl_dictInsert_ne ps _ (fun q hq => h q (List.mem_cons_of_mem _ hq))]
    exact lookup_dictInsert_ne p.2 (h p (List.mem_cons_self _ _)) d

/-- In a replayed dict, a key maps to the value of its last binding. -/
theorem dictOfList_lookup_last {k : K} {v : V} (l₁ l₂ : List (K × V))
    (h₂ : ∀ p ∈ l₂, (k == p.1) = false) :
    (dictOfList (l₁ ++ (k, v) :: l₂)).lookup k = some v := by
  rw [dictOfList, List.foldl_append, List.foldl_cons,
    lookup_foldl_dictInsert_ne l₂ _ h₂, lookup_dictInsert_self]

/-- A key bound nowhere in the sequence is absent from the replayed dict. -/
theorem dictOfList_lookup_none {k : K} (l : List (K × V))
    (h : ∀ p ∈ l, (k == p.1) = false) :
    (dictOfList l).lookup k = none := by
  rw [dictOfList, lookup_foldl_dictInsert_ne l [] h]
  rfl

omit [LawfulBEq K] in
theorem mem_foldl_dictInsert {q : K × V} :
    ∀ (l : List (K × V)) (d : List (K × V)),
      q ∈ l.foldl (fun d p => dictInsert p.1 p.2 d) d → q ∈ d ∨ ∃ p ∈ l, q.1 = p.1
  | [], d, h => Or.inl h
  | p :: ps, d, h => by
    rcases mem_foldl_dictInsert ps _ h with h | ⟨r, hr, hq⟩
    · rcases mem_dictInsert h with h | h
      · exact Or.inr ⟨p, List.mem_cons_self _ _, by rw [h]⟩
      · exact Or.inl h
    · exact Or.inr ⟨r, List.mem_cons_of_mem _ hr, hq⟩

omit [LawfulBEq K] in
/-- Every entry of a replayed dict takes its key from the sequence. -/
theorem mem_dictOfList_key {q : K × V} {l : List (K × V)}
    (h : q ∈ dictOfList l) : ∃ p ∈ l, q.1 = p.1 := by
  rcases mem_foldl_dictInsert l [] h with h | h
  · simp at h
  · exact h

theorem lookup_mem {k : K} {v : V} :
    ∀ {l : List (K × V)}, l.lookup k = some v → (k, v) ∈ l
  | [], h => by simp [List.lookup] at h
  | p :: ps, h => by
    rw [List.lookup] at h
    cases hk : k == p.1 with
    | true =>
      rw [hk] at h
      have hv : p.2 = v := by simpa using h
      have hkp : k = p.1 := eq_of_beq hk
      have hp : p = (k, v) := by
        obtain ⟨p1, p2⟩ := p
        simp only at hkp hv
        rw [hkp, hv]
      rw [← hp]
      exact List.mem_cons_self _ _
    | false =>
      rw [hk] at h
      exact List.mem_cons_of_mem _ (lookup_mem h)

end DictLemmas

/-! ### `List.Forall₂`, `exMapM` and `optMapM` lemmas -/

section MapMLemmas

variable {α β : Type}

theorem forall₂_mem_right {R : α → β → Prop} {l : List α} {r : List β}
    (h : List.Forall₂ R l r) : ∀ {b}, b ∈ r → ∃ a ∈ l, R a b := by
  induction h with
  | nil => intro b hb; cases hb
  | cons hfst _ ih =>
    intro b hb
    rcases List.mem_cons.mp hb with rfl | hb
    · exact ⟨_, List.mem_cons_self _ _, hfst⟩
    · rcases ih hb with ⟨a, ha, hr⟩
      exact ⟨a, List.mem_cons_of_mem _ ha, hr⟩

theorem forall₂_mem_left {R : α → β → Prop} {l : List α} {r : List β}
    (h : List.Forall₂ R l r) : ∀ {a}, a ∈ l → ∃ b ∈ r, R a b := by
  induction h with
  | nil => intro a ha; cases ha
  | cons hfst _ ih =>
    intro a ha
    rcases List.mem_cons.mp ha with rfl | ha
    · exact ⟨_, List.mem_cons_self _ _, hfst⟩
    · rcases ih ha with ⟨b, hb, hr⟩
      exact ⟨b, List.mem_cons_of_mem _ hb, hr⟩

theorem forall₂_append_decomp {R : α → β → Prop} :
    ∀ {l₁ l₂ : List α} {r : List β}, List.Forall₂ R (l₁ ++ l₂) r →
      ∃ r₁ r₂, r = r₁ ++ r₂ ∧ List.Forall₂ R l₁ r₁ ∧ List.Forall₂ R l₂ r₂
  | [], l₂, r, h => ⟨[], r, rfl, List.Forall₂.nil, h⟩
  | x :: xs, l₂, r, h => by
    cases h with
    | cons hfst hrest =>
      rcases forall₂_append_decomp hrest with ⟨r₁, r₂, rfl, h₁, h₂⟩
      exact ⟨_ :: r₁, r₂, rfl, List.Forall₂.cons hfst h₁, h₂⟩

/-- A lookup in the left list of a key-preserving `Forall₂` transfers to
the right list. -/
theorem forall₂_lookup {K W U : Type} [BEq K] [LawfulBEq K]
    {R : (K × W) → (K × U) → Prop} (hkey : ∀ p q, R p q → q.1 = p.1)
    {l : List (K × W)} {out : List (K × U)} (h : List.Forall₂ R l out) :
    ∀ {k : K} {w : W}, l.lookup k = some w →
      ∃ u, out.lookup k = some u ∧ R (k, w) (k, u) := by
  induction h with
  | nil => intro k w hl; simp [List.lookup] at hl
  | @cons p q l' out' hfst _ ih =>
    intro k w hl
    rw [List.lookup] at hl
    have hq1 : q.1 = p.1 := hkey p q hfst
    cases hk : k == p.1 with
    | true =>
      rw [hk] at hl
      have hkp : k = p.1 := eq_of_beq hk
      have hw : p.2 = w := by simpa using hl
      have e1 : ((k, w) : K × W) = p := by
        obtain ⟨p1, p2⟩ := p
        simp only at hkp hw
        rw [hkp, hw]
      have e2 : ((k, q.2) : K × U) = q := by
        obtain ⟨q1, q2⟩ := q
        simp only at hq1
        rw [hq1, hkp]
      refine ⟨q.2, ?_, ?_⟩
      · rw [List.lookup, show (k == q.1) = true by rw [hq1]; exact hk]
      · rw [e1, e2]
        exact hfst
    | false =>
      rw [hk] at hl
      rcases ih hl with ⟨u, hu, hr⟩
      refine ⟨u, ?_, hr⟩
      rw [List.lookup, show (k == q.1) = false by rw [hq1]; exact hk]
      exact hu

theorem exMapM_ok_forall₂ {f : α → Except String β} :
    ∀ {l : List α} {r : List β}, exMapM f l = .ok r →
      List.Forall₂ (fun a b => f a = .ok b) l r
  | [], r, h => by
    rw [exMapM] at h
    cases h
    exact List.Forall₂.nil
  | x :: xs, r, h => by
    rw [exMapM] at h
    cases hx : f x with
    | error e => rw [hx] at h; cases h
    | ok y =>
      rw [hx] at h
      cases hxs : exMapM f xs with
      | error e => rw [hxs] at h; cases h
      | ok ys =>
        rw [hxs] at h
        cases h
        exact List.Forall₂.cons hx (exMapM_ok_forall₂ hxs)

theorem exMapM_ok_of_mem {f : α → Except String β} {l : List α} {r : List β}
    (h : exMapM f l = .ok r) {a : α} (ha : a ∈ l) : ∃ b, f a = .ok b := by
  rcases forall₂_mem_left (exMapM_ok_forall₂ h) ha with ⟨b, _, hb⟩
  exact ⟨b, hb⟩

theorem exMapM_error_of_mem {f : α → Except String β} {l : List α} {a : α}
    (ha : a ∈ l) (hf : ∀ b, f a ≠ .ok b) : ∃ e, exMapM f l = .error e := by
  cases h : exMapM f l with
  | error e => exact ⟨e, rfl⟩
  | ok r =>
    rcases exMapM_ok_of_mem h ha with ⟨b, hb⟩
    exact absurd hb (hf b)

theorem optMapM_ok_forall₂ {f : α → Option β} :
    ∀ {l : List α} {r : List β}, optMapM f l = some r →
      List.Forall₂ (fun a b => f a = some b) l r
  | [], r, h => by
    rw [optMapM] at h
    cases h
    exact List.Forall₂.nil
  | x :: xs, r, h => by
    rw [optMapM] at h
    cases hx : f x with
    | none => rw [hx] at h; cases h
    | some y =>
      rw [hx] at h
      cases hxs : optMapM f xs with
      | none => rw [hxs] at h; cases h
      | some ys =>
        rw [hxs] at h
        cases h
        exact List.Forall₂.cons hx (optMapM_ok_forall₂ hxs)

theorem optMapM_none_of_mem {f : α → Option β} {l : List α} {a : α}
    (ha : a ∈ l) (hf : f a = none) : optMapM f l = none := by
  cases h : optMapM f l with
  | none => rfl
  | some r =>
    rcases forall₂_mem_left (optMapM_ok_forall₂ h) ha with ⟨b, _, hb⟩
    rw [hf] at hb
    cases hb

end MapMLemmas

/-! ### Reshape lemmas -/

section ChunkLemmas

variable {α : Type}

theorem takeChunks_length (c : Nat) : ∀ (r : Nat) (xs : List α), (takeChunks r c xs).length = r
  | 0, _ => rfl
  | r' + 1, xs => by
    rw [takeChunks, List.length_cons, takeChunks_length c r' (xs.drop c)]

theorem takeChunks_row_length (c : Nat) :
    ∀ (r : Nat) (xs : List α), xs.length = r * c →
      ∀ row ∈ takeChunks r c xs, row.length = c
  | 0, xs, _, row, hrow => by cases hrow
  | r' + 1, xs, hlen, row, hrow => by
    rw [takeChunks] at hrow
    rcases List.mem_cons.mp hrow with rfl | hrow
    · rw [List.length_take, hlen, Nat.succ_mul]
      exact Nat.min_eq_left (Nat.le_add_left c _)
    · refine takeChunks_row_length c r' (xs.drop c) ?_ row hrow
      rw [List.length_drop, hlen, Nat.succ_mul, Nat.add_sub_cancel]

theorem takeChunks_flatten (c : Nat) :
    ∀ (r : Nat) (xs : List α), xs.length = r * c →
      (takeChunks r c xs).flatten = xs
  | 0, xs, hlen => by
    rw [takeChunks, List.flatten_nil]
    exact (List.eq_nil_of_length_eq_zero (by rw [hlen, Nat.zero_mul])).symm
  | r' + 1, xs, hlen => by
    rw [takeChunks, List.flatten_cons,
      takeChunks_flatten c r' (xs.drop c)
        (by rw [List.length_drop, hlen, Nat.succ_mul, Nat.add_sub_cancel]),
      List.take_append_drop]

end ChunkLemmas

/-! ### Reader decomposition lemmas -/

namespace XMLBIFReader

/-- A key/value lookup that misses every key of an association list. -/
theorem lookup_none_of_forall_ne {K V : Type} [BEq K] {k : K} :
    ∀ {l : List (K × V)}, (∀ p ∈ l, (k == p.1) = false) → l.lookup k = none
  | [], _ => rfl
  | p :: ps, h => by
    rw [List.lookup, h p (List.mem_cons_self _ _)]
    exact lookup_none_of_forall_ne (fun q hq => h q (List.mem_cons_of_mem _ hq))

theorem defEntry_key {d : XElem} {p : Option String × List (Option String)}
    (h : defEntry d = .ok p) : ∃ f, d.find "FOR" = some f ∧ p.1 = f.text := by
  unfold defEntry at h
  cases hf : d.find "FOR" with
  | none => rw [hf] at h; cases h
  | some f =>
    rw [hf] at h
    have := Except.ok.inj h
    exact ⟨f, rfl, by rw [← this]⟩

theorem cpdEntry_key {d t : XElem} {p : Option String × List Rat}
    (h : cpdEntry d t = .ok p) : ∃ f, d.find "FOR" = some f ∧ p.1 = f.text := by
  unfold cpdEntry at h
  cases hf : d.find "FOR" with
  | none => rw [hf] at h; cases h
  | some f =>
    rw [hf] at h
    dsimp only at h
    cases ht : t.text with
    | none => rw [ht] at h; cases h
    | some s =>
      rw [ht] at h
      dsimp only at h
      cases hm : optMapM pyFloat (pySplit s) with
      | none => rw [hm] at h; cases h
      | some fs =>
        rw [hm] at h
        dsimp only at h
        have := Except.ok.inj h
        exact ⟨f, rfl, by rw [← this]⟩

theorem cpdEntry_eq {d t f : XElem} {v s : String}
    (hford : d.find "FOR" = some f) (hft : f.text = some v) (htext : t.text = some s) :
    cpdEntry d t =
      match optMapM pyFloat (pySplit s) with
      | some fs => .ok (some v, fs)
      | none => .error "ValueError: could not convert string to float" := by
  unfold cpdEntry
  rw [hford]
  dsimp only
  rw [htext]
  dsimp only
  simp only [hft]

theorem get_parents_ok {network : XElem} {ps : List (Option String × List (Option String))}
    (h : get_parents network = .ok ps) :
    ∃ raw, exMapM defEntry (network.findall "DEFINITION") = .ok raw ∧ ps = dictOfList raw := by
  unfold get_parents at h
  cases hm : exMapM defEntry (network.findall "DEFINITION") with
  | error e => rw [hm] at h; cases h
  | ok raw =>
    rw [hm] at h
    exact ⟨raw, rfl, (Except.ok.inj h).symm⟩

theorem get_cpd_ok {network : XElem} {states : List (Option String × List (Option String))}
    {out : List (Option String × List (List Rat))}
    (h : get_cpd network states = .ok out) :
    ∃ raw, cpdRaw network = .ok raw ∧
      exMapM (reshapeEntry states) (dictOfList raw) = .ok out := by
  unfold get_cpd at h
  cases hr : cpdRaw network with
  | error e => rw [hr] at h; cases h
  | ok raw =>
    rw [hr] at h
    exact ⟨raw, rfl, h⟩

theorem cpdRaw_ok {network : XElem} {raw : List (Option String × List Rat)}
    (h : cpdRaw network = .ok raw) :
    ∃ parts, exMapM (fun d => exMapM (cpdEntry d) (d.findall "TABLE"))
        (network.findall "DEFINITION") = .ok parts ∧ raw = parts.flatten := by
  unfold cpdRaw at h
  cases hm : exMapM (fun d => exMapM (cpdEntry d) (d.findall "TABLE"))
      (network.findall "DEFINITION") with
  | error e => rw [hm] at h; cases h
  | ok parts =>
    rw [hm] at h
    exact ⟨parts, rfl, (Except.ok.inj h).symm⟩

theorem reshapeEntry_key (states : List (Option String × List (Option String)))
    (p : Option String × List Rat) (q : Option String × List (List Rat))
    (h : reshapeEntry states p = .ok q) : q.1 = p.1 := by
  unfold reshapeEntry at h
  cases hl : states.lookup p.1 with
  | none => rw [hl] at h; cases h
  | some sts =>
    rw [hl] at h
    dsimp only at h
    by_cases h0 : sts.length = 0
    · rw [if_pos h0] at h; cases h
    · rw [if_neg h0] at h
      by_cases hc : p.2.length = sts.length * (p.2.length / sts.length)
      · rw [if_pos hc] at h
        rw [← Except.ok.inj h]
      · rw [if_neg hc] at h; cases h

theorem reshapeEntry_ok_elim {states : List (Option String × List (Option String))}
    {p : Option String × List Rat} {q : Option String × List (List Rat)}
    (h : reshapeEntry states p = .ok q) :
    ∃ sts, states.lookup p.1 = some sts ∧ sts.length ≠ 0 ∧
      p.2.length = sts.length * (p.2.length / sts.length) ∧
      q = (p.1, takeChunks sts.length (p.2.length / sts.length) p.2) := by
  unfold reshapeEntry at h
  cases hl : states.lookup p.1 with
  | none => rw [hl] at h; cases h
  | some sts =>
    rw [hl] at h
    dsimp only at h
    by_cases h0 : sts.length = 0
    · rw [if_pos h0] at h; cases h
    · rw [if_neg h0] at h
      by_cases hc : p.2.length = sts.length * (p.2.length / sts.length)
      · rw [if_pos hc] at h
        exact ⟨sts, rfl, h0, hc, (Except.ok.inj h).symm⟩
      · rw [if_neg hc] at h; cases h

end XMLBIFReader

namespace XMLBIFReader

/-- The parents dict maps a FOR name to the reversed GIVEN texts of the
last DEFINITION carrying that name. -/
theorem parents_lookup {network d f : XElem} {c : String} {gs : List (Option String)}
    {pre post : List XElem} {ps : List (Option String × List (Option String))}
    (hps : get_parents network = .ok ps)
    (hsplit : network.findall "DEFINITION" = pre ++ d :: post)
    (hlast : ∀ d' ∈ post, ∀ f', d'.find "FOR" = some f' → f'.text ≠ some c)
    (hford : d.find "FOR" = some f) (hft : f.text = some c)
    (hgiven : (d.findall "GIVEN").map XElem.text = gs) :
    ps.lookup (some c) = some gs.reverse := by
  rcases get_parents_ok hps with ⟨raw, hraw, rfl⟩
  rw [hsplit] at hraw
  rcases forall₂_append_decomp (exMapM_ok_forall₂ hraw) with ⟨rpre, rrest, rfl, _, hrest⟩
  cases hrest with
  | @cons _ ed _ rpost hd hpostfa =>
    have hed : ed = (some c, gs.reverse) := by
      unfold defEntry at hd
      rw [hford] at hd
      dsimp only at hd
      rw [hft, hgiven] at hd
      exact (Except.ok.inj hd).symm
    have hkeys : ∀ p ∈ rpost, ((some c : Option String) == p.1) = false := by
      intro p hp
      rcases forall₂_mem_right hpostfa hp with ⟨d', hd', hrel⟩
      rcases defEntry_key hrel with ⟨f', hf', hkey⟩
      rw [beq_eq_false_iff_ne]
      intro hvk
      exact hlast d' hd' f' hf' (by rw [← hkey, ← hvk])
    rw [hed]
    exact dictOfList_lookup_last rpre rpost hkeys

/-- A name that labels no DEFINITION is absent from the parents dict. -/
theorem parents_lookup_none {network : XElem} {v : String}
    {ps : List (Option String × List (Option String))}
    (hps : get_parents network = .ok ps)
    (hnone : ∀ d ∈ network.findall "DEFINITION", ∀ f, d.find "FOR" = some f →
      f.text ≠ some v) :
    ps.lookup (some v) = none ∧ ∀ p ∈ ps, p.1 ≠ some v := by
  rcases get_parents_ok hps with ⟨raw, hraw, rfl⟩
  have hkeys : ∀ p ∈ raw, ((some v : Option String) == p.1) = false := by
    intro p hp
    rcases forall₂_mem_right (exMapM_ok_forall₂ hraw) hp with ⟨d, hd, hrel⟩
    rcases defEntry_key hrel with ⟨f, hf, hkey⟩
    rw [beq_eq_false_iff_ne]
    intro hvk
    exact hnone d hd f hf (by rw [← hkey, ← hvk])
  refine ⟨dictOfList_lookup_none raw hkeys, ?_⟩
  intro p hp hpv
  rcases mem_dictOfList_key hp with ⟨q, hq, hqk⟩
  have := hkeys q hq
  rw [beq_eq_false_iff_ne] at this
  exact this (by rw [← hqk, hpv])

/-- The raw CPD dict maps a FOR name to the floats of the last TABLE of
the last DEFINITION carrying that name. -/
theorem cpdRaw_lookup {network d t f : XElem} {v s : String} {fs : List Rat}
    {pre post ts : List XElem} {raw : List (Option String × List Rat)}
    (hsplit : network.findall "DEFINITION" = pre ++ d :: post)
    (hpost : ∀ d' ∈ post, ∀ f', d'.find "FOR" = some f' → f'.text ≠ some v)
    (hford : d.find "FOR" = some f) (hft : f.text = some v)
    (htab : d.findall "TABLE" = ts ++ [t])
    (htext : t.text = some s)
    (hfs : optMapM pyFloat (pySplit s) = some fs)
    (hraw : cpdRaw network = .ok raw) :
    (dictOfList raw).lookup (some v) = some fs := by
  rcases cpdRaw_ok hraw with ⟨parts, hparts, rfl⟩
  rw [hsplit] at hparts
  rcases forall₂_append_decomp (exMapM_ok_forall₂ hparts) with ⟨ppre, prest, rfl, _, hrest⟩
  cases hrest with
  | @cons _ pd _ ppost hd hpostfa =>
    rw [htab] at hd
    rcases forall₂_append_decomp (exMapM_ok_forall₂ hd) with ⟨e1, e2, rfl, _, he2⟩
    cases he2 with
    | @cons _ et _ enil het hnil =>
      cases hnil
      have hetv : et = (some v, fs) := by
        have := cpdEntry_eq hford hft htext (t := t)
        rw [hfs] at this
        rw [this] at het
        exact (Except.ok.inj het).symm
      have hkeys : ∀ p ∈ ppost.flatten, ((some v : Option String) == p.1) = false := by
        intro p hp
        rcases List.mem_flatten.mp hp with ⟨part, hpart, hpm⟩
        rcases forall₂_mem_right hpostfa hpart with ⟨d', hd', hrel⟩
        rcases forall₂_mem_right (exMapM_ok_forall₂ hrel) hpm with ⟨t', ht', hce⟩
        rcases cpdEntry_key hce with ⟨f', hf', hkey⟩
        rw [beq_eq_false_iff_ne]
        intro hvk
        exact hpost d' hd' f' hf' (by rw [← hkey, ← hvk])
      have hflat : (ppre ++ (e1 ++ [et]) :: ppost).flatten
          = (ppre.flatten ++ e1) ++ ((some v, fs) :: ppost.flatten) := by
        rw [hetv]
        simp [List.flatten_append, List.flatten_cons, List.append_assoc]
      rw [hflat]
      exact dictOfList_lookup_last _ _ hkeys

end XMLBIFReader

/-! ### Claim instances -/

/-- C1: the round-trip property fails on the code.  At a well-formed
one-variable model the writer succeeds, but parsing its output fails with
an `AttributeError` (the serialized VARIABLE elements carry no NAME child,
so `get_variables` dereferences `None`): `variables()` can never equal V. -/
theorem c1_roundtrip_read_of_writer_output_fails :
    (XMLBIFWriter.writer_init roundtripModel).toOption.isSome = true ∧
      (XMLBIFWriter.writer_init roundtripModel).bind XMLBIFReader.reader_of_root
        = .error "AttributeError: find NAME returned None" :=
  ⟨rfl, rfl⟩

/-- C2: the writer's output violates the XMLBIF schema.  At a well-formed
one-variable model the serialized VARIABLE element has its OUTCOME
children but no NAME child at all. -/
theorem c2_writer_variable_missing_name :
    (XMLBIFWriter.writer_network schemaModel).map
        (fun net => (net.findall "VARIABLE").map
          (fun ve => (ve.find "NAME", (ve.findall "OUTCOME").map XElem.text)))
      = .ok [(none, [some "yes", some "no"])] :=
  rfl

/-- C3 counterexample: with BOTH a path and a string given, construction
does not raise the configuration error — the path silently wins. -/
theorem c3_both_inputs_accepted :
    XMLBIFReader.reader_source (some "model.xml") (some "<BIF></BIF>")
      = .ok (.inl "model.xml") :=
  rfl

/-- C3 (amended): the configuration error is raised exactly when neither
input is truthy (absent or empty); when both are given the path takes
precedence and no error is raised. -/
theorem c3_config_error_iff_neither_truthy (path sdata : Option String) :
    XMLBIFReader.reader_source path sdata
        = .error "ValueError: Must specify either path or string" ↔
      XMLBIFReader.pyTruthy path = false ∧ XMLBIFReader.pyTruthy sdata = false := by
  unfold XMLBIFReader.reader_source
  by_cases hp : XMLBIFReader.pyTruthy path <;>
    by_cases hs : XMLBIFReader.pyTruthy sdata <;> simp [hp, hs]

/-- C4: a DEFINITION with FOR text c and GIVEN children [p1, p2] in
document order (and no later DEFINITION for c) makes `parents()` map c to
[p2, p1], and c's contribution to `edges()` is the contiguous pair
(p2, c), (p1, c) — (p2, c) first. -/
theorem c4_parent_reversal (network d f : XElem) (c p1 p2 : String)
    (pre post : List XElem) (ps : List (Option String × List (Option String)))
    (hps : XMLBIFReader.get_parents network = .ok ps)
    (hsplit : network.findall "DEFINITION" = pre ++ d :: post)
    (hlast : ∀ d' ∈ post, ∀ f', d'.find "FOR" = some f' → f'.text ≠ some c)
    (hford : d.find "FOR" = some f) (hft : f.text = some c)
    (hgiven : (d.findall "GIVEN").map XElem.text = [some p1, some p2]) :
    ps.lookup (some c) = some [some p2, some p1] ∧
      List.IsInfix [(some p2, some c), (some p1, some c)] (XMLBIFReader.get_edges ps) := by
  have hlook := XMLBIFReader.parents_lookup hps hsplit hlast hford hft hgiven
  rw [show ([some p1, some p2] : List (Option String)).reverse
      = [some p2, some p1] from rfl] at hlook
  refine ⟨hlook, ?_⟩
  have hmem : ((some c : Option String), [some p2, some p1]) ∈ ps := lookup_mem hlook
  rcases List.append_of_mem hmem with ⟨s1, s2, rfl⟩
  unfold XMLBIFReader.get_edges
  refine ⟨s1.flatMap (fun p => p.2.map (fun w => (w, p.1))),
    s2.flatMap (fun p => p.2.map (fun w => (w, p.1))), ?_⟩
  rw [List.flatMap_append, List.flatMap_cons]
  simp [List.append_assoc]

/-- C4 witness: the claim instantiated at a concrete one-definition
document. -/
theorem c4_parent_reversal_witness :
    List.lookup (some "c") [((some "c" : Option String), [some "p2", some "p1"])]
        = some [some "p2", some "p1"] ∧
      List.IsInfix [(some "p2", some "c"), (some "p1", some "c")]
        (XMLBIFReader.get_edges [((some "c" : Option String), [some "p2", some "p1"])]) :=
  c4_parent_reversal parentsNet parentsDefn parentsFor "c" "p1" "p2" [] []
    [((some "c" : Option String), [some "p2", some "p1"])]
    rfl rfl (by intro d' hd'; cases hd') rfl rfl rfl

/-- C7 counterexample: variable a appears as a VARIABLE but has no
DEFINITION; `parents()` then has NO key for a (lookup misses), rather than
mapping a to an empty list as the claim states. -/
theorem c7_missing_definition_is_missing_key :
    XMLBIFReader.get_variables noDefNet = .ok [some "a", some "b"] ∧
      XMLBIFReader.get_parents noDefNet = .ok [(some "b", [some "a"])] ∧
      List.lookup (some "a") [((some "b" : Option String), [some "a"])] = none :=
  ⟨rfl, rfl, rfl⟩

/-- C7 (amended): a variable with no DEFINITION entry is treated as having
no parents only implicitly — `parents()` has no key for it (its lookup
misses, rather than yielding an explicit empty list) and `edges()`
contains no edge into it. -/
theorem c7_no_definition_absent_from_parents (network : XElem) (v : String)
    (ps : List (Option String × List (Option String)))
    (hps : XMLBIFReader.get_parents network = .ok ps)
    (hnone : ∀ d ∈ network.findall "DEFINITION", ∀ f, d.find "FOR" = some f →
      f.text ≠ some v) :
    ps.lookup (some v) = none ∧ ∀ e ∈ XMLBIFReader.get_edges ps, e.2 ≠ some v := by
  rcases XMLBIFReader.parents_lookup_none hps hnone with ⟨h1, h2⟩
  refine ⟨h1, ?_⟩
  intro e he
  unfold XMLBIFReader.get_edges at he
  rcases List.mem_flatMap.mp he with ⟨p, hp, hep⟩
  rcases List.mem_map.mp hep with ⟨w, _, rfl⟩
  exact h2 p hp

/-- C7 witness: the amended claim at the concrete document. -/
theorem c7_no_definition_absent_from_parents_witness :
    List.lookup (some "a") [((some "b" : Option String), [some "a"])] = none ∧
      ∀ e ∈ XMLBIFReader.get_edges [((some "b" : Option String), [some "a"])],
        e.2 ≠ some "a" :=
  c7_no_definition_absent_from_parents noDefNet "a" [(some "b", [some "a"])] rfl
    (by
      intro d hd f hf heq
      rw [show noDefNet.findall "DEFINITION" = [noDefDefn] from rfl] at hd
      rw [List.mem_singleton] at hd
      subst hd
      have hfb : XElem.node "FOR" [] (some "b") [] = f :=
        Option.some.inj ((rfl :
          noDefDefn.find "FOR" = some (XElem.node "FOR" [] (some "b") [])).symm.trans hf)
      rw [← hfb] at heq
      exact absurd (Option.some.inj heq) (by decide))

/-- C9 counterexample: a parsed document whose NETWORK has no NAME child
makes reader construction fail with an access error — the Reader does not
recover from a missing network name. -/
theorem c9_reader_requires_network_name :
    XMLBIFReader.reader_of_root nonameRoot
      = .error "AttributeError: find NAME returned None" :=
  rfl

/-- C10: the writer's input record must contain a property key even though
all spec-listed required fields are present: a record whose property key
is absent makes construction fail with a KeyError-style access failure. -/
theorem c10_writer_requires_property_key (m : XMLBIFWriter.ModelData)
    (h : m.property = none) : ∃ e, XMLBIFWriter.writer_init m = .error e := by
  have hav : ∃ e, XMLBIFWriter.add_variables m.vars m.states m.property = .error e := by
    rw [h]
    unfold XMLBIFWriter.add_variables
    dsimp only
    cases hf : XMLBIFWriter.applyEntries XMLBIFWriter.mkOutcome
        "KeyError: states entry for unknown variable"
        ((XMLBIFWriter.pySorted m.vars).map (fun v => (v, []))) m.states with
    | error e => exact ⟨e, rfl⟩
    | ok tags => exact ⟨"KeyError: property", rfl⟩
  rcases hav with ⟨e, he⟩
  refine ⟨e, ?_⟩
  unfold XMLBIFWriter.writer_init XMLBIFWriter.writer_network
  rw [he]
  rfl

/-- C10 witness: the failure at a concrete record lacking only property. -/
theorem c10_writer_requires_property_key_witness :
    ∃ e, XMLBIFWriter.writer_init noPropModel = .error e :=
  c10_writer_requires_property_key noPropModel rfl

/-- C5: for a variable v with k states (k > 0, per the data-model
invariant that state lists are nonempty) whose (last) TABLE text parses to
exactly k*m floats, `cpd()` maps v to a k-row matrix of m-entry rows whose
row-major flattening is the original float sequence in order. -/
theorem c5_cpd_reshape (network d t f : XElem) (v s : String) (k m : Nat)
    (fs : List Rat) (sts : List (Option String))
    (states : List (Option String × List (Option String)))
    (out : List (Option String × List (List Rat)))
    (pre post ts : List XElem)
    (hsplit : network.findall "DEFINITION" = pre ++ d :: post)
    (hpost : ∀ d' ∈ post, ∀ f', d'.find "FOR" = some f' → f'.text ≠ some v)
    (hford : d.find "FOR" = some f) (hft : f.text = some v)
    (htab : d.findall "TABLE" = ts ++ [t]) (htext : t.text = some s)
    (hfs : optMapM pyFloat (pySplit s) = some fs)
    (hsts : states.lookup (some v) = some sts) (hk : sts.length = k) (hkpos : 0 < k)
    (hlen : fs.length = k * m)
    (hok : XMLBIFReader.get_cpd network states = .ok out) :
    ∃ M, out.lookup (some v) = some M ∧ M.length = k ∧
      (∀ row ∈ M, row.length = m) ∧ M.flatten = fs := by
  rcases XMLBIFReader.get_cpd_ok hok with ⟨raw, hraw, hmap⟩
  have hlook := XMLBIFReader.cpdRaw_lookup hsplit hpost hford hft htab htext hfs hraw
  rcases forall₂_lookup (XMLBIFReader.reshapeEntry_key states)
    (exMapM_ok_forall₂ hmap) hlook with ⟨M, hM, hre⟩
  rcases XMLBIFReader.reshapeEntry_ok_elim hre with ⟨sts', hsts', h0, hdiv, hq⟩
  dsimp only at hsts' hdiv hq
  rw [hsts] at hsts'
  have hss : sts' = sts := (Option.some.inj hsts').symm
  rw [hss] at hq
  have hM2 : M = takeChunks sts.length (fs.length / sts.length) fs :=
    congrArg Prod.snd hq
  have hm' : fs.length / sts.length = m := by
    rw [hk, hlen]
    exact Nat.mul_div_cancel_left m hkpos
  rw [hm', hk] at hM2
  refine ⟨M, hM, ?_, ?_, ?_⟩
  · rw [hM2]
    exact takeChunks_length m k fs
  · rw [hM2]
    exact takeChunks_row_length m k fs hlen
  · rw [hM2]
    exact takeChunks_flatten m k fs hlen

/-- C5 witness: the reshape claim at a concrete 2-state variable with a
4-float TABLE. -/
theorem c5_cpd_reshape_witness :
    ∃ M, List.lookup (some "v")
        [((some "v" : Option String), takeChunks 2 2 cpdNetFloats)] = some M ∧
      M.length = 2 ∧ (∀ row ∈ M, row.length = 2) ∧ M.flatten = cpdNetFloats :=
  c5_cpd_reshape cpdNet cpdDefn cpdTable cpdFor "v" "0.25 0.75 0.5 0.5" 2 2
    cpdNetFloats [some "t", some "f"] cpdNetStates
    [((some "v" : Option String), takeChunks 2 2 cpdNetFloats)] [] [] []
    rfl (by intro d' hd'; cases hd') rfl rfl rfl rfl rfl rfl rfl (by decide) rfl rfl

/-- C6: for a variable v with k states (k > 0), `cpd()` fails — it never
returns a silently truncated matrix — whenever v's TABLE text either
cannot be fully parsed as whitespace-separated floats, or parses to a
float count not divisible by k. -/
theorem c6_cpd_reshape_failure (network d t f : XElem) (v s : String) (k : Nat)
    (sts : List (Option String))
    (states : List (Option String × List (Option String)))
    (pre post ts : List XElem)
    (hsplit : network.findall "DEFINITION" = pre ++ d :: post)
    (hpost : ∀ d' ∈ post, ∀ f', d'.find "FOR" = some f' → f'.text ≠ some v)
    (hford : d.find "FOR" = some f) (hft : f.text = some v)
    (htab : d.findall "TABLE" = ts ++ [t]) (htext : t.text = some s)
    (hsts : states.lookup (some v) = some sts) (hk : sts.length = k) (hkpos : 0 < k)
    (hbad : optMapM pyFloat (pySplit s) = none ∨
      ∃ fs, optMapM pyFloat (pySplit s) = some fs ∧ ¬ (k ∣ fs.length)) :
    ∃ e, XMLBIFReader.get_cpd network states = .error e := by
  cases hout : XMLBIFReader.get_cpd network states with
  | error e => exact ⟨e, rfl⟩
  | ok out =>
    exfalso
    rcases XMLBIFReader.get_cpd_ok hout with ⟨raw, hraw, hmap⟩
    rcases hbad with hnone | ⟨fs, hfs, hndvd⟩
    · rcases XMLBIFReader.cpdRaw_ok hraw with ⟨parts, hparts, _⟩
      have hdmem : d ∈ network.findall "DEFINITION" := by
        rw [hsplit]
        exact List.mem_append_right pre (List.mem_cons_self _ _)
      rcases exMapM_ok_of_mem hparts hdmem with ⟨pd, hd⟩
      have htmem : t ∈ d.findall "TABLE" := by
        rw [htab]
        exact List.mem_append_right ts (List.mem_cons_self _ _)
      rcases exMapM_ok_of_mem hd htmem with ⟨et, het⟩
      have hce := XMLBIFReader.cpdEntry_eq (t := t) hford hft htext
      rw [hnone] at hce
      dsimp only at hce
      rw [hce] at het
      cases het
    · have hlook := XMLBIFReader.cpdRaw_lookup hsplit hpost hford hft htab htext hfs hraw
      rcases forall₂_lookup (XMLBIFReader.reshapeEntry_key states)
        (exMapM_ok_forall₂ hmap) hlook with ⟨M, _, hre⟩
      rcases XMLBIFReader.reshapeEntry_ok_elim hre with ⟨sts', hsts', _, hdiv, _⟩
      dsimp only at hsts' hdiv
      rw [hsts] at hsts'
      have hss : sts' = sts := (Option.some.inj hsts').symm
      rw [hss] at hdiv
      refine hndvd ?_
      rw [← hk]
      exact ⟨fs.length / sts.length, hdiv⟩

/-- C6 witness: a 2-state variable with a 5-float TABLE makes `cpd()`
fail. -/
theorem c6_cpd_reshape_failure_witness :
    ∃ e, XMLBIFReader.get_cpd cpdBadNet cpdBadNetStates = .error e :=
  c6_cpd_reshape_failure cpdBadNet cpdBadDefn cpdBadTable cpdBadFor "w"
    "0.25 0.75 0.5 0.5 0.1" 2 [some "t", some "f"] cpdBadNetStates [] [] []
    rfl (by intro d' hd'; cases hd') rfl rfl rfl rfl rfl rfl (by decide)
    (Or.inr ⟨cpdBadNetFloats, rfl, by decide⟩)

/-! ### Writer characterization lemmas -/

namespace XMLBIFWriter

theorem lookup_none_of_not_mem {K V : Type} [BEq K] [LawfulBEq K] {k : K}
    {l : List (K × V)} (h : k ∉ l.map Prod.fst) : l.lookup k = none := by
  refine XMLBIFReader.lookup_none_of_forall_ne ?_
  intro p hp
  rw [beq_eq_false_iff_ne]
  intro hk
  exact h (hk ▸ List.mem_map_of_mem Prod.fst hp)

theorem updateLast_none {v : String} {new : List XElem} :
    ∀ {tags : List (String × List XElem)}, v ∉ tags.map Prod.fst →
      updateLast v new tags = none
  | [], _ => rfl
  | (w, cs) :: rest, h => by
    rw [List.map_cons, List.mem_cons] at h
    push_neg at h
    rw [updateLast, updateLast_none h.2]
    rw [if_neg]
    intro hw
    exact h.1 ((eq_of_beq hw).symm)

theorem updateLast_eq {v : String} (new : List XElem) :
    ∀ {tags : List (String × List XElem)}, (tags.map Prod.fst).Nodup →
      v ∈ tags.map Prod.fst →
      updateLast v new tags
        = some (tags.map (fun q => if q.1 = v then (q.1, q.2 ++ new) else q))
  | [], _, hmem => by cases hmem
  | (w, cs) :: rest, hnd, hmem => by
    rw [List.map_cons, List.nodup_cons] at hnd
    rw [List.map_cons, List.mem_cons] at hmem
    by_cases hvr : v ∈ rest.map Prod.fst
    · have hwv : w ≠ v := by
        intro hw
        exact hnd.1 (by rw [hw]; exact hvr)
      rw [updateLast, updateLast_eq new hnd.2 hvr]
      dsimp only
      rw [List.map_cons]
      dsimp only
      rw [if_neg hwv]
    · have hwv : w = v := by
        rcases hmem with h | h
        · exact h.symm
        · exact absurd h hvr
      rw [updateLast, updateLast_none hvr, hwv]
      dsimp only
      rw [if_pos (beq_self_eq_true v), List.map_cons]
      dsimp only
      rw [if_pos rfl]
      have hrest : rest.map (fun q => if q.1 = v then (q.1, q.2 ++ new) else q) = rest := by
        refine (List.map_congr_left ?_).trans (List.map_id rest)
        intro q hq
        have hqv : ¬ (q.1 = v) := fun hqv => hvr (hqv ▸ List.mem_map_of_mem Prod.fst hq)
        rw [if_neg hqv]
        rfl
      rw [hrest]

end XMLBIFWriter

namespace XMLBIFWriter

theorem lookup_cons_eq {K V : Type} [BEq K] (k : K) (b : V) (es : List (K × V)) {a : K}
    (h : (a == k) = true) : ((k, b) :: es).lookup a = some b := by
  rw [List.lookup, h]

theorem lookup_cons_ne {K V : Type} [BEq K] (k : K) (b : V) (es : List (K × V)) {a : K}
    (h : (a == k) = false) : ((k, b) :: es).lookup a = es.lookup a := by
  rw [List.lookup, h]

/-- Replaying one attach loop over a dict whose keys are unique and all
registered appends, to each element, the children for its own key. -/
theorem applyEntries_ok (g : String → XElem) (E : String) :
    ∀ (entries : List (String × List String)) (tags : List (String × List XElem)),
      (tags.map Prod.fst).Nodup →
      (entries.map Prod.fst).Nodup →
      (∀ p ∈ entries, p.1 ∈ tags.map Prod.fst) →
      applyEntries g E tags entries
        = .ok (tags.map (fun q => (q.1, q.2 ++ ((entries.lookup q.1).getD []).map g)))
  | [], tags, _, _, _ => by
    unfold applyEntries exFoldl
    have htags : tags.map (fun q =>
        (q.1, q.2 ++ ((List.lookup q.1 ([] : List (String × List String))).getD []).map g))
        = tags := by
      refine (List.map_congr_left ?_).trans (List.map_id tags)
      intro q _
      show (q.1, q.2 ++ []) = id q
      rw [List.append_nil]
      rfl
    rw [htags]
  | (v, items) :: rest, tags, hnd, hek, hmem => by
    have hv : v ∈ tags.map Prod.fst := hmem (v, items) (List.mem_cons_self _ _)
    rw [List.map_cons, List.nodup_cons] at hek
    unfold applyEntries exFoldl
    dsimp only
    rw [updateLast_eq (items.map g) hnd hv]
    dsimp only
    have hfst : (tags.map (fun q : String × List XElem =>
        if q.1 = v then (q.1, q.2 ++ items.map g) else q)).map Prod.fst
        = tags.map Prod.fst := by
      rw [List.map_map]
      refine List.map_congr_left ?_
      intro q _
      by_cases hqv : q.1 = v
      · simp only [Function.comp_apply, if_pos hqv]
      · simp only [Function.comp_apply, if_neg hqv]
    have ih := applyEntries_ok g E rest
      (tags.map (fun q : String × List XElem =>
        if q.1 = v then (q.1, q.2 ++ items.map g) else q))
      (by rw [hfst]; exact hnd) hek.2
      (by
        intro p hp
        rw [hfst]
        exact hmem p (List.mem_cons_of_mem _ hp))
    unfold applyEntries at ih
    rw [ih]
    refine congrArg Except.ok ?_
    rw [List.map_map]
    refine List.map_congr_left ?_
    intro q _
    by_cases hqv : q.1 = v
    · have hvrest : rest.lookup v = none := lookup_none_of_not_mem hek.1
      simp only [Function.comp_apply, if_pos hqv, hqv, hvrest, if_true,
        lookup_cons_eq v items rest (beq_self_eq_true v), Option.getD_none,
        Option.getD_some, List.map_nil, List.append_nil, List.append_assoc]
    · simp only [Function.comp_apply, if_neg hqv,
        lookup_cons_ne v items rest (by rw [beq_eq_false_iff_ne]; exact hqv)]

end XMLBIFWriter

namespace XMLBIFWriter

theorem add_variables_eq (vars : List String) (states pl : List (String × List String)) :
    add_variables vars states (some pl)
      = (applyEntries mkOutcome "KeyError: states entry for unknown variable"
          ((pySorted vars).map (fun v => (v, []))) states).bind (fun tags1 =>
          (applyEntries mkProperty "KeyError: property entry for unknown variable"
            tags1 pl).map
            (fun tags2 => tags2.map
              (fun p => XElem.node "VARIABLE" [("TYPE", "nature")] none p.2))) := by
  unfold add_variables
  dsimp only
  cases applyEntries mkOutcome "KeyError: states entry for unknown variable"
      ((pySorted vars).map (fun v => (v, []))) states with
  | error e => rfl
  | ok tags1 =>
    cases applyEntries mkProperty "KeyError: property entry for unknown variable"
        tags1 pl with
    | error e => rfl
    | ok tags2 => rfl

/-- With a well-formed record (unique variables, states/property dicts
keyed within the variable set), `add_variables` succeeds and builds, per
sorted variable, a VARIABLE element holding that variable's OUTCOME
children followed by its PROPERTY children. -/
theorem add_variables_ok {vars : List String} {states pl : List (String × List String)}
    (hv : vars.Nodup)
    (hsk : (states.map Prod.fst).Nodup) (hsm : ∀ p ∈ states, p.1 ∈ vars)
    (hpk : (pl.map Prod.fst).Nodup) (hpm : ∀ p ∈ pl, p.1 ∈ vars) :
    add_variables vars states (some pl)
      = .ok ((pySorted vars).map (varNode states pl)) := by
  have htags0 : (((pySorted vars).map (fun v => (v, ([] : List XElem)))).map Prod.fst)
      = pySorted vars := by
    rw [List.map_map]
    refine (List.map_congr_left ?_).trans (List.map_id _)
    intro a _
    rfl
  have h1 := applyEntries_ok mkOutcome "KeyError: states entry for unknown variable"
      states ((pySorted vars).map (fun v => (v, ([] : List XElem))))
      (by rw [htags0]; exact pySorted_nodup hv) hsk
      (by intro p hp; rw [htags0, mem_pySorted]; exact hsm p hp)
  have htags1 : ((((pySorted vars).map (fun v => (v, ([] : List XElem)))).map
      (fun q => (q.1, q.2 ++ ((states.lookup q.1).getD []).map mkOutcome))).map Prod.fst)
      = pySorted vars := by
    rw [List.map_map, List.map_map]
    refine (List.map_congr_left ?_).trans (List.map_id _)
    intro a _
    rfl
  have h2 := applyEntries_ok mkProperty "KeyError: property entry for unknown variable"
      pl (((pySorted vars).map (fun v => (v, ([] : List XElem)))).map
        (fun q => (q.1, q.2 ++ ((states.lookup q.1).getD []).map mkOutcome)))
      (by rw [htags1]; exact pySorted_nodup hv) hpk
      (by intro p hp; rw [htags1, mem_pySorted]; exact hpm p hp)
  rw [add_variables_eq, h1]
  show (applyEntries mkProperty "KeyError: property entry for unknown variable"
      (((pySorted vars).map (fun v => (v, ([] : List XElem)))).map
        (fun q => (q.1, q.2 ++ ((states.lookup q.1).getD []).map mkOutcome))) pl).map
      (fun tags2 => tags2.map
        (fun p => XElem.node "VARIABLE" [("TYPE", "nature")] none p.2)) = _
  rw [h2]
  show Except.ok _ = _
  refine congrArg Except.ok ?_
  rw [List.map_map, List.map_map]
  dsimp only
  rw [List.map_map]
  refine List.map_congr_left ?_
  intro a _
  simp only [Function.comp_apply, varNode, List.nil_append]

end XMLBIFWriter

namespace XMLBIFWriter

theorem filter_tag_map_eq_self {α : Type} (l : List α) (f : α → XElem) (t : String)
    (h : ∀ a, ((f a).tag == t) = true) :
    (l.map f).filter (fun c => c.tag == t) = l.map f := by
  refine List.filter_eq_self.mpr ?_
  intro x hx
  rcases List.mem_map.mp hx with ⟨a, _, rfl⟩
  exact h a

theorem filter_tag_map_eq_nil {α : Type} (l : List α) (f : α → XElem) (t : String)
    (h : ∀ a, ((f a).tag == t) = false) :
    (l.map f).filter (fun c => c.tag == t) = [] := by
  refine List.filter_eq_nil_iff.mpr ?_
  intro x hx
  rcases List.mem_map.mp hx with ⟨a, _, rfl⟩
  simp [h a]

theorem nameElems_filter (nm : Option String) (t : String) (ht : ("NAME" == t) = false) :
    (nameElems nm).filter (fun c => c.tag == t) = [] := by
  cases nm with
  | none => rfl
  | some n => simp [nameElems, List.filter_cons, XElem.tag, ht]

theorem mkDefinition_find_for (v : String) (gl : List String) :
    (mkDefinition v gl).find "FOR" = some (XElem.node "FOR" [] (some v) []) :=
  rfl

theorem mkDefinition_givens (v : String) (gl : List String) :
    ((mkDefinition v gl).findall "GIVEN").map XElem.text = gl.map (fun g => some g) := by
  have hstep : (mkDefinition v gl).findall "GIVEN"
      = (gl.map mkGiven).filter (fun c => c.tag == "GIVEN") := rfl
  rw [hstep, filter_tag_map_eq_self gl mkGiven "GIVEN" (fun a => rfl), List.map_map]
  exact List.map_congr_left (fun a _ => rfl)

/-- `writer_network` on a well-formed record: NAME (when present), then
the sorted VARIABLE elements, then the sorted DEFINITION elements. -/
theorem writer_network_ok {m : ModelData} {pl : List (String × List String)}
    (hp : m.property = some pl) (hv : m.vars.Nodup)
    (hsk : (m.states.map Prod.fst).Nodup) (hsm : ∀ p ∈ m.states, p.1 ∈ m.vars)
    (hpk : (pl.map Prod.fst).Nodup) (hpm : ∀ p ∈ pl, p.1 ∈ m.vars) :
    writer_network m = .ok (XElem.node "NETWORK" [] none
      (nameElems m.network_name
        ++ (pySorted m.vars).map (varNode m.states pl)
        ++ add_definition m.parents)) := by
  unfold writer_network
  rw [hp, add_variables_ok hv hsk hsm hpk hpm]
  rfl

end XMLBIFWriter

/-- C8: on a well-formed record the writer serializes the VARIABLE
elements in lexicographic order of variable name (one per variable, each
carrying its own OUTCOME/PROPERTY children in input list order), the
DEFINITION elements in lexicographic order of their FOR name, and the
GIVEN children of every DEFINITION in lexicographic order — all
independent of the input ordering, since the output depends only on the
sorted views. -/
theorem c8_writer_canonical_ordering (m : XMLBIFWriter.ModelData)
    (pl : List (String × List String))
    (hp : m.property = some pl) (hv : m.vars.Nodup)
    (hsk : (m.states.map Prod.fst).Nodup) (hsm : ∀ p ∈ m.states, p.1 ∈ m.vars)
    (hpk : (pl.map Prod.fst).Nodup) (hpm : ∀ p ∈ pl, p.1 ∈ m.vars) :
    ∃ net, XMLBIFWriter.writer_network m = .ok net ∧
      net.findall "VARIABLE"
        = (XMLBIFWriter.pySorted m.vars).map (XMLBIFWriter.varNode m.states pl) ∧
      List.Sorted (· ≤ ·) (XMLBIFWriter.pySorted m.vars) ∧
      (net.findall "DEFINITION").map (fun d => (d.find "FOR").map XElem.text)
        = (XMLBIFWriter.pySorted (m.parents.map Prod.fst)).map
            (fun v => some (some v)) ∧
      List.Sorted (· ≤ ·) (XMLBIFWriter.pySorted (m.parents.map Prod.fst)) ∧
      ∀ d ∈ net.findall "DEFINITION", ∃ v,
        d = XMLBIFWriter.mkDefinition v
              (XMLBIFWriter.pySorted ((m.parents.lookup v).getD [])) ∧
        ((d.findall "GIVEN").map XElem.text)
          = (XMLBIFWriter.pySorted ((m.parents.lookup v).getD [])).map
              (fun g => some g) ∧
        List.Sorted (· ≤ ·) (XMLBIFWriter.pySorted ((m.parents.lookup v).getD [])) := by
  have hw := XMLBIFWriter.writer_network_ok hp hv hsk hsm hpk hpm
  have hvar : (XElem.node "NETWORK" [] none
      (XMLBIFWriter.nameElems m.network_name
        ++ (XMLBIFWriter.pySorted m.vars).map (XMLBIFWriter.varNode m.states pl)
        ++ XMLBIFWriter.add_definition m.parents)).findall "VARIABLE"
      = (XMLBIFWriter.pySorted m.vars).map (XMLBIFWriter.varNode m.states pl) := by
    show (XMLBIFWriter.nameElems m.network_name
        ++ (XMLBIFWriter.pySorted m.vars).map (XMLBIFWriter.varNode m.states pl)
        ++ XMLBIFWriter.add_definition m.parents).filter (fun c => c.tag == "VARIABLE") = _
    unfold XMLBIFWriter.add_definition
    rw [List.filter_append, List.filter_append,
      XMLBIFWriter.nameElems_filter m.network_name "VARIABLE" rfl,
      XMLBIFWriter.filter_tag_map_eq_self (XMLBIFWriter.pySorted m.vars)
        (XMLBIFWriter.varNode m.states pl) "VARIABLE" (fun a => rfl),
      XMLBIFWriter.filter_tag_map_eq_nil (XMLBIFWriter.pySorted (m.parents.map Prod.fst))
        (fun v => XMLBIFWriter.mkDefinition v
          (XMLBIFWriter.pySorted ((m.parents.lookup v).getD []))) "VARIABLE"
        (fun a => rfl),
      List.nil_append, List.append_nil]
  have hdef : (XElem.node "NETWORK" [] none
      (XMLBIFWriter.nameElems m.network_name
        ++ (XMLBIFWriter.pySorted m.vars).map (XMLBIFWriter.varNode m.states pl)
        ++ XMLBIFWriter.add_definition m.parents)).findall "DEFINITION"
      = (XMLBIFWriter.pySorted (m.parents.map Prod.fst)).map
          (fun v => XMLBIFWriter.mkDefinition v
            (XMLBIFWriter.pySorted ((m.parents.lookup v).getD []))) := by
    show (XMLBIFWriter.nameElems m.network_name
        ++ (XMLBIFWriter.pySorted m.vars).map (XMLBIFWriter.varNode m.states pl)
        ++ XMLBIFWriter.add_definition m.parents).filter (fun c => c.tag == "DEFINITION") = _
    unfold XMLBIFWriter.add_definition
    rw [List.filter_append, List.filter_append,
      XMLBIFWriter.nameElems_filter m.network_name "DEFINITION" rfl,
      XMLBIFWriter.filter_tag_map_eq_nil (XMLBIFWriter.pySorted m.vars)
        (XMLBIFWriter.varNode m.states pl) "DEFINITION" (fun a => rfl),
      XMLBIFWriter.filter_tag_map_eq_self (XMLBIFWriter.pySorted (m.parents.map Prod.fst))
        (fun v => XMLBIFWriter.mkDefinition v
          (XMLBIFWriter.pySorted ((m.parents.lookup v).getD []))) "DEFINITION"
        (fun a => rfl),
      List.nil_append, List.nil_append]
  refine ⟨_, hw, hvar, XMLBIFWriter.pySorted_sorted _, ?_,
    XMLBIFWriter.pySorted_sorted _, ?_⟩
  · rw [hdef, List.map_map]
    refine List.map_congr_left ?_
    intro v _
    show ((XMLBIFWriter.mkDefinition v
      (XMLBIFWriter.pySorted ((m.parents.lookup v).getD []))).find "FOR").map XElem.text = _
    rw [XMLBIFWriter.mkDefinition_find_for]
    rfl
  · intro d hd
    rw [hdef] at hd
    rcases List.mem_map.mp hd with ⟨v, _, rfl⟩
    exact ⟨v, rfl, XMLBIFWriter.mkDefinition_givens _ _,
      XMLBIFWriter.pySorted_sorted _⟩

/-- C8 witness: the canonical ordering at variables ["b", "a", "c"] with
unsorted parent lists. -/
theorem c8_writer_canonical_ordering_witness :
    ∃ net, XMLBIFWriter.writer_network orderModel = .ok net ∧
      net.findall "VARIABLE"
        = (XMLBIFWriter.pySorted orderModel.vars).map
            (XMLBIFWriter.varNode orderModel.states [("a", ["pos = (1, 2)"])]) ∧
      List.Sorted (· ≤ ·) (XMLBIFWriter.pySorted orderModel.vars) ∧
      (net.findall "DEFINITION").map (fun d => (d.find "FOR").map XElem.text)
        = (XMLBIFWriter.pySorted (orderModel.parents.map Prod.fst)).map
            (fun v => some (some v)) ∧
      List.Sorted (· ≤ ·) (XMLBIFWriter.pySorted (orderModel.parents.map Prod.fst)) ∧
      ∀ d ∈ net.findall "DEFINITION", ∃ v,
        d = XMLBIFWriter.mkDefinition v
              (XMLBIFWriter.pySorted ((orderModel.parents.lookup v).getD [])) ∧
        ((d.findall "GIVEN").map XElem.text)
          = (XMLBIFWriter.pySorted ((orderModel.parents.lookup v).getD [])).map
              (fun g => some g) ∧
        List.Sorted (· ≤ ·)
          (XMLBIFWriter.pySorted ((orderModel.parents.lookup v).getD [])) :=
  c8_writer_canonical_ordering orderModel [("a", ["pos = (1, 2)"])] rfl
    (by decide) (by decide) (by decide) (by decide) (by decide)

/-- C9 (amended): an absent network name is recovered by the Writer — the
NAME element is simply omitted and construction succeeds — but not by the
Reader: a NETWORK element with no NAME child makes reader construction
fail with an access error. -/
theorem c9_network_name_writer_recovers_reader_fails (m : XMLBIFWriter.ModelData)
    (pl : List (String × List String))
    (hname : m.network_name = none)
    (hp : m.property = some pl) (hv : m.vars.Nodup)
    (hsk : (m.states.map Prod.fst).Nodup) (hsm : ∀ p ∈ m.states, p.1 ∈ m.vars)
    (hpk : (pl.map Prod.fst).Nodup) (hpm : ∀ p ∈ pl, p.1 ∈ m.vars) :
    (∃ net, XMLBIFWriter.writer_network m = .ok net ∧ net.find "NAME" = none) ∧
      (∀ network : XElem, network.find "NAME" = none →
        ∃ e, XMLBIFReader.reader_of_network network = .error e) := by
  constructor
  · refine ⟨_, XMLBIFWriter.writer_network_ok hp hv hsk hsm hpk hpm, ?_⟩
    rw [hname]
    show List.find? (fun c => c.tag == "NAME")
        (XMLBIFWriter.nameElems none
          ++ (XMLBIFWriter.pySorted m.vars).map (XMLBIFWriter.varNode m.states pl)
          ++ XMLBIFWriter.add_definition m.parents) = none
    refine List.find?_eq_none.mpr ?_
    intro x hx
    rcases List.mem_append.mp hx with hx | hx
    · rcases List.mem_append.mp hx with hx | hx
      · simp [XMLBIFWriter.nameElems] at hx
      · rcases List.mem_map.mp hx with ⟨a, _, rfl⟩
        exact fun hcontra => Bool.noConfusion hcontra
    · unfold XMLBIFWriter.add_definition at hx
      rcases List.mem_map.mp hx with ⟨v, _, rfl⟩
      exact fun hcontra => Bool.noConfusion hcontra
  · intro network h
    unfold XMLBIFReader.reader_of_network
    rw [h]
    exact ⟨"AttributeError: find NAME returned None", rfl⟩

/-- C9 witness: the amended claim at a concrete nameless record and a
concrete nameless NETWORK element. -/
theorem c9_network_name_witness :
    (∃ net, XMLBIFWriter.writer_network nonameModel = .ok net ∧
        net.find "NAME" = none) ∧
      (∃ e, XMLBIFReader.reader_of_network nonameNet = .error e) :=
  ⟨(c9_network_name_writer_recovers_reader_fails nonameModel [("a", [])] rfl rfl
      (by decide) (by decide) (by decide) (by decide) (by decide)).1,
   (c9_network_name_writer_recovers_reader_fails nonameModel [("a", [])] rfl rfl
      (by decide) (by decide) (by decide) (by decide) (by decide)).2 nonameNet rfl⟩
